import Mathlib

/-!
Verification of the search core of the Url-Scrapper repository.

The definitions below are a shallow embedding of the Python sources:
  * `src/api.py`    — TF-IDF search API (`load_data`, `search_articles`, `search`)
  * `src/api_deploy.py` — simplified deployment search (`search_simple`)
  * `src/utils.py`  — `parse_claps`

Similarity values are produced by the external scikit-learn library
(`TfidfVectorizer.transform` + `cosine_similarity`); the repository's own code
receives them as an opaque vector of floats and then filters, sorts, truncates
and formats.  Accordingly the pipeline is parametrised by the similarity list
(one score per document), over an arbitrary linearly ordered type with zero:
the theorems instantiate it with `ℚ` (exact stand-in for the float scores) or
with `ℝ` when the cosine formula itself is in play.

`pandas.DataFrame.sort_values` on several columns uses a lexicographic, stable
sort (`numpy.lexsort`; for `ascending=[False, False]` the key order is
reversed, stability is kept).  `Python`'s `list.sort` is likewise stable.  Both
are modelled by `List.insertionSort`, which is a stable sort, with the
corresponding total preorder; any two stable sorts of the same list under the
same total preorder produce the same output list.
-/

namespace Scraper

/-- One row of the loaded `pandas` DataFrame, as the search code sees it.
`none` models a missing value (`NaN`): `url`/`title` are passed through to
results unfilled, `claps`/`author` get defaults at formatting time
(src/api.py lines 163-170).  `searchText` is the combined text column built at
load time (src/api.py lines 86-91). -/
structure Doc where
  url : Option String
  title : Option String
  claps : Option Int
  author : Option String
  searchText : String
deriving DecidableEq

/-- Sort-key order on the `claps` column: `clapsLe a b` says a value `a` may
appear at or after... precisely, `a ≤ b` with a missing value (`NaN`) as
bottom.  `pandas.sort_values` with `ascending=False` places `NaN` last
(`na_position` defaults to `"last"`), which matches bottom in a descending
sort. -/
def clapsLe : Option Int → Option Int → Prop
  | none, _ => True
  | some _, none => False
  | some m, some n => m ≤ n

instance clapsLe.instDecidable : DecidableRel clapsLe := fun a b =>
  match a, b with
  | none, _ => isTrue trivial
  | some _, none => isFalse (fun h => h)
  | some m, some n => inferInstanceAs (Decidable (m ≤ n))

/-- `keyLex f s a b` holds when `a` may be placed before `b` in a sort whose
primary key is `f` in descending order and whose secondary criterion is the
relation `s`.  This is the total preorder realised by
`sort_values(by=[primary, secondary], ascending=[False, False])` and by
`list.sort(key=lambda x: (-primary, -secondary))`. -/
def keyLex {α : Type} {β : Type} (f : α → β) [LinearOrder β]
    (s : α → α → Prop) (a b : α) : Prop :=
  f b < f a ∨ (f a = f b ∧ s a b)

instance keyLex.instDecidable {α β : Type} (f : α → β) [LinearOrder β]
    (s : α → α → Prop) [DecidableRel s] : DecidableRel (keyLex f s) := fun a b =>
  inferInstanceAs (Decidable (f b < f a ∨ (f a = f b ∧ s a b)))

/-- The row order used by `search_articles`:
`sort_values(by=['similarity', 'claps'], ascending=[False, False])`
(src/api.py lines 153-156).  A row is a document paired with its similarity
score. -/
def rankRel (α : Type) [LinearOrder α] : Doc × α → Doc × α → Prop :=
  keyLex Prod.snd (fun a b => clapsLe b.1.claps a.1.claps)

instance rankRel.instDecidable {α : Type} [LinearOrder α] :
    DecidableRel (rankRel α) :=
  keyLex.instDecidable _ _

/-- Popularity-only order: rank the corpus by descending `claps` alone.  This
follows the spec's words for the fallback branch ("fall back to ranking the
entire corpus by popularity alone") and is compared against the code's
combined sort. -/
def clapsOnlyRel (α : Type) : Doc × α → Doc × α → Prop := fun a b =>
  clapsLe b.1.claps a.1.claps

instance clapsOnlyRel.instDecidable {α : Type} :
    DecidableRel (clapsOnlyRel α) := fun a b =>
  clapsLe.instDecidable b.1.claps a.1.claps

/-- Filter, fallback, sort and truncate of `search_articles`
(src/api.py lines 143-159):
similarity threshold `> 0`; if nothing passes, take the whole frame; stable
sort by (similarity desc, claps desc); `head(top_k)`. -/
def searchCore {α : Type} [LinearOrder α] [Zero α]
    (rows : List (Doc × α)) (top_k : ℕ) : List (Doc × α) :=
  let similar := rows.filter (fun r => decide (0 < r.2))
  let cands := if similar.isEmpty then rows else similar
  (List.insertionSort (rankRel α) cands).take top_k

/-- The entire row list ranked by popularity alone (spec wording for the
fallback result). -/
def clapsRank {α : Type} [LinearOrder α] (rows : List (Doc × α)) :
    List (Doc × α) :=
  List.insertionSort (clapsOnlyRel α) rows

/-- The in-memory frame behind the module-level global `df` of src/api.py.
`simCol` is the `'similarity'` column: absent until the first query writes it
(src/api.py line 141). -/
structure Frame where
  docs : List Doc
  simCol : Option (List ℚ)
deriving DecidableEq

/-- The fitted TF-IDF vectorizer state (module-level global `vectorizer`).
Its contents are produced by scikit-learn; the claims only need that queries
leave it unchanged. -/
structure Vectorizer where
  vocabulary : List String
  idf : List ℚ
deriving DecidableEq

/-- The module-level global state of src/api.py: `df`, `vectorizer`,
`tfidf_matrix` (lines 53-55), all `None` before `load_data` runs. -/
structure ApiState where
  df : Option Frame
  vectorizer : Option Vectorizer
  tfidfMatrix : Option (List (List ℚ))
deriving DecidableEq

/-- Floor of a rational, computed on the numerator/denominator pair. -/
def qfloor (q : ℚ) : ℤ := Int.fdiv q.num (q.den : ℤ)

/-- Python's `round` to an integer: round-half-to-even (banker's rounding).
Decimal values are modelled exactly as rationals; the double-precision
representation error of the float pipeline is not modelled. -/
def pyRoundInt (q : ℚ) : ℤ :=
  let f := qfloor q
  let r := q - (f : ℚ)
  if 2 * r < 1 then f else if 1 < 2 * r then f + 1
  else if f % 2 = 0 then f else f + 1

/-- `round(float(x), 4)` from the result formatting (src/api.py line 169). -/
def round4 (q : ℚ) : ℚ := (pyRoundInt (q * 10000) : ℚ) / 10000

/-- One formatted search result (src/api.py lines 163-170): `url` and `title`
pass through unfilled, a missing `claps` becomes `0`, a missing author becomes
`"Unknown"`, the similarity is rounded to 4 decimal places. -/
structure SearchResult where
  url : Option String
  title : Option String
  claps : Int
  author : String
  similarity_score : ℚ
deriving DecidableEq

/-- Formatting of one row into a result dictionary (src/api.py lines 163-170). -/
def formatRow (p : Doc × ℚ) : SearchResult :=
  { url := p.1.url
    title := p.1.title
    claps := p.1.claps.getD 0
    author := p.1.author.getD "Unknown"
    similarity_score := round4 p.2 }

/-- `search_articles(query, top_k)` of src/api.py (lines 111-172), with the
externally computed cosine-similarity vector passed in as `sims`.  Returns the
result list together with the module state after the call: the function writes
the `'similarity'` column into the shared global DataFrame
(`df['similarity'] = similarities`, line 141) unless it returned early. -/
def search_articles (st : ApiState) (sims : List ℚ) (top_k : ℕ) :
    List SearchResult × ApiState :=
  match st.df with
  | none => ([], st)
  | some fr =>
    if fr.docs.isEmpty then ([], st)
    else
      let rows := fr.docs.zip sims
      ((searchCore rows top_k).map formatRow,
        { st with df := some { fr with simCol := some sims } })

/-- The `/search` endpoint's limit handling (src/api.py lines 226-234): the
caller's requested count is capped at 50 before being passed to
`search_articles`. -/
def search (st : ApiState) (sims : List ℚ) (limit : ℕ) :
    List SearchResult × ApiState :=
  search_articles st sims (min limit 50)

/-- Error taxonomy of the spec's failure-mode section.  The code of
src/api.py never raises any of these. -/
inductive SearchError where
  | IndexNotBuilt
  | MalformedQuery
deriving DecidableEq

/-- `search_articles` with its exception channel made explicit: the Python
body contains no `raise` and no failing operation for a well-formed string
query, so every branch returns normally. -/
def searchArticlesExc (st : ApiState) (sims : List ℚ) (top_k : ℕ) :
    Except SearchError (List SearchResult) :=
  Except.ok (search_articles st sims top_k).1

/-- One raw CSV row as read by `pandas.read_csv`; `none` models a missing
value (`NaN`). -/
structure Row where
  url : Option String
  title : Option String
  subtitle : Option String
  text : Option String
  keywords : Option String
  claps : Option Int
  author_name : Option String
deriving DecidableEq

/-- A loaded DataFrame: the list of column names actually present in the CSV
header, plus the rows.  Accessing `df[c]` for a column `c` not in `cols`
raises `KeyError` in pandas. -/
structure Table where
  cols : List String
  rows : List Row
deriving DecidableEq

/-- `load_data` failure: pandas `KeyError` on a column access. -/
inductive LoadError where
  | keyError (col : String)
deriving DecidableEq

/-- Construction of one document at load time: the combined `search_text`
column is built from the four text columns with missing values filled by `''`
(src/api.py lines 86-91); the other fields pass through untouched. -/
def mkDoc (r : Row) : Doc :=
  { url := r.url
    title := r.title
    claps := r.claps
    author := r.author_name
    searchText := r.title.getD "" ++ " " ++ r.subtitle.getD "" ++ " " ++
      r.text.getD "" ++ " " ++ r.keywords.getD "" }

/-- The four columns accessed (in this order) when `search_text` is built. -/
def textCols : List String := ["title", "subtitle", "text", "keywords"]

/-- The external TF-IDF fit (`TfidfVectorizer.fit_transform`, scikit-learn):
a black-box collaborator producing the vectorizer and the document-vector
matrix.  The repository's own code never inspects these beyond passing them
around, so it is kept as a parameter. -/
def FitFn := List Doc → Vectorizer × List (List ℚ)

/-- `load_data()` of src/api.py (lines 62-108).  A missing source file leaves
an empty DataFrame and returns early (lines 74-78, the vectorizer is never
fitted); otherwise the combined text column is built — accessing any absent
text column raises `KeyError` — and the external fit runs. -/
def load_data (fit : FitFn) (source : Option Table) : Except LoadError ApiState :=
  match source with
  | none => Except.ok ⟨some ⟨[], none⟩, none, none⟩
  | some t =>
    match textCols.find? (fun c => !t.cols.contains c) with
    | some c => Except.error (LoadError.keyError c)
    | none =>
      let docs := t.rows.map mkDoc
      let v := fit docs
      Except.ok ⟨some ⟨docs, none⟩, some v.1, some v.2⟩

/-- ASCII whitespace, as recognised by Python's `str.strip` and `str.split`. -/
def wsp (c : Char) : Bool := c ∈ [' ', '\t', '\n', '\r', '\x0B', '\x0C']

/-- ASCII lower-casing of one character (`str.lower`, ASCII subset). -/
def lowChar (c : Char) : Char :=
  if 'A' ≤ c ∧ c ≤ 'Z' then Char.ofNat (c.toNat + 32) else c

/-- `s.lower()` on a character list. -/
def pyLower (l : List Char) : List Char := l.map lowChar

/-- `s.split()`: maximal runs of non-whitespace characters. -/
def wordsOf (l : List Char) : List (List Char) :=
  (l.splitOnP wsp).filter (fun w => !w.isEmpty)

/-- Adjacent-word pairs, the bigram terms of the vectorizer. -/
def bigrams (ws : List String) : List String :=
  (ws.zip ws.tail).map (fun p => p.1 ++ " " ++ p.2)

/-- Modelled from the spec: the tokenizer of the external
`TfidfVectorizer(stop_words='english', ngram_range=(1, 2))` is not part of
this repository; per the spec, tokenization is case-insensitive, a
configurable stop-word set is removed, and both unigrams and bigrams are
terms. -/
def tokenize (stop : List String) (text : String) : List String :=
  let ws := ((wordsOf (pyLower text.data)).map (fun w => String.mk w)).filter
    (fun t => !stop.contains t)
  ws ++ bigrams ws

/-- Dot product of two coordinate lists (missing tail coordinates are zero). -/
def dot : List ℝ → List ℝ → ℝ
  | a :: as, b :: bs => a * b + dot as bs
  | _, _ => 0

/-- Modelled from the spec: `vectorizer.transform([query])` of the external
scikit-learn library — the query's term-count over the fitted vocabulary,
weighted by the idf vector.  (The library also L2-normalises this vector;
`cosineSim` below renormalises anyway, and a zero vector stays zero, so the
normalisation step is absorbed there.) -/
noncomputable def transform (vocab : List String) (idf : List ℝ)
    (stop : List String) (text : String) : List ℝ :=
  (vocab.zip idf).map
    (fun p => (List.count p.1 (tokenize stop text) : ℝ) * p.2)

/-- Modelled from the spec: `sklearn.metrics.pairwise.cosine_similarity` —
the dot product of the two vectors divided by the product of their Euclidean
norms; a zero vector yields similarity `0` (in Lean, division by zero gives
`0`, matching the library's safeguard). -/
noncomputable def cosineSim (q d : List ℝ) : ℝ :=
  dot q d / (Real.sqrt (dot q q) * Real.sqrt (dot d d))

/-- `similarities = cosine_similarity(query_vector, tfidf_matrix).flatten()`
(src/api.py lines 132-138): one similarity per document vector. -/
noncomputable def querySims (vocab : List String) (idf : List ℝ)
    (stop : List String) (query : String) (mat : List (List ℝ)) : List ℝ :=
  mat.map (cosineSim (transform vocab idf stop query))

/-- One row of the deployment API's DataFrame after the `row.get(c, default)`
accesses and `str()` coercions of src/api_deploy.py (lines 50, 56). -/
structure DeployRow where
  url : String
  title : String
  text : String
  keywords : String
  claps : Int
deriving DecidableEq

/-- One result of the deployment search (src/api_deploy.py lines 64-68). -/
structure DeployResult where
  url : String
  title : String
  claps : Int
deriving DecidableEq

/-- Python's substring test `w in t`. -/
def isSub (w t : List Char) : Bool := t.tails.any (fun s => w.isPrefixOf s)

/-- The lower-cased searchable text of one row:
`(str(title) + ' ' + str(text) + ' ' + str(keywords)).lower()`
(src/api_deploy.py lines 50-51). -/
def docText (r : DeployRow) : List Char :=
  pyLower (r.title ++ " " ++ r.text ++ " " ++ r.keywords).data

/-- `query.lower().split()` (src/api_deploy.py line 46). -/
def queryWords (query : String) : List (List Char) :=
  wordsOf (pyLower query.data)

/-- `sum(1 for word in query_words if word in text)` (src/api_deploy.py
line 54). -/
def scoreOf (query : String) (r : DeployRow) : ℕ :=
  (queryWords query).countP (fun w => isSub w (docText r))

/-- The `scores` list before sorting: rows with a positive match count, in
frame order (src/api_deploy.py lines 49-56). -/
def scoredRows (rows : List DeployRow) (query : String) : List (DeployRow × ℕ) :=
  rows.filterMap (fun r =>
    let sc := scoreOf query r
    if 0 < sc then some (r, sc) else none)

/-- `scores.sort(key=lambda x: (-x[1], -x[2]))` — descending match count,
then descending claps, stable (src/api_deploy.py line 59). -/
def deployRel : DeployRow × ℕ → DeployRow × ℕ → Prop :=
  keyLex Prod.snd (fun a b => b.1.claps ≤ a.1.claps)

instance deployRel.instDecidable : DecidableRel deployRel :=
  keyLex.instDecidable _ _

/-- `search_simple(query, top_k)` of src/api_deploy.py (lines 42-70). -/
def search_simple (rows : List DeployRow) (query : String) (top_k : ℕ) :
    List DeployResult :=
  ((List.insertionSort deployRel (scoredRows rows query)).take top_k).map
    (fun p => ⟨p.1.url, p.1.title, p.1.claps⟩)

/-- ASCII upper-casing of one character (`str.upper`, ASCII subset). -/
def upChar (c : Char) : Char :=
  if 'a' ≤ c ∧ c ≤ 'z' then Char.ofNat (c.toNat - 32) else c

/-- `s.upper()` on a character list. -/
def pyUpper (l : List Char) : List Char := l.map upChar

/-- `s.strip()`: remove leading and trailing whitespace. -/
def stripWs (l : List Char) : List Char :=
  ((l.dropWhile wsp).reverse.dropWhile wsp).reverse

/-- Split a character list at the first character satisfying `p`, if any. -/
def splitOnce (p : Char → Bool) : List Char → Option (List Char × List Char)
  | [] => none
  | c :: cs =>
    if p c then some ([], cs)
    else (splitOnce p cs).map (fun q => (c :: q.1, q.2))

/-- Numeric value of an ASCII digit. -/
def digitVal (c : Char) : ℕ := c.toNat - 48

/-- Value of a digit string read in base 10. -/
def digitsVal (l : List Char) : ℕ := l.foldl (fun a c => 10 * a + digitVal c) 0

/-- A non-empty all-digit list parsed to its value, `none` otherwise. -/
def digitsOnly (l : List Char) : Option ℕ :=
  if l.isEmpty then none
  else if l.all Char.isDigit then some (digitsVal l) else none

/-- The exceptions that can arise from the `float()`/`int()` calls inside
`parse_claps`: `ValueError` for an unparseable string or `int(nan)` — caught
by the `except ValueError` handler — and `OverflowError` for `int()` of an
infinite value, which that handler does not catch. -/
inductive PyExc where
  | valueError
  | overflowError
deriving DecidableEq

/-- The literal denoted by a string accepted by Python's `float` grammar: a
finite decimal `mant * 10 ^ exp10` (kept exact at this syntax level — any
rounding to binary64 happens in `PyFloatSem.ofLiteral`, not here), or one of
the special literals `inf`/`-inf`/`nan`. -/
inductive FloatLit where
  | num (mant : ℤ) (exp10 : ℤ)
  | inf
  | ninf
  | nan
deriving DecidableEq

/-- Negation of a parsed literal (a leading `-` sign). -/
def negLit : FloatLit → FloatLit
  | FloatLit.num m e => FloatLit.num (-m) e
  | FloatLit.inf => FloatLit.ninf
  | FloatLit.ninf => FloatLit.inf
  | FloatLit.nan => FloatLit.nan

/-- The mantissa part of a float literal: digits with an optional single
decimal point and at least one digit overall, or the case-insensitive special
literals `inf`/`infinity`/`nan`. -/
def unsignedMantissa (l : List Char) : Option FloatLit :=
  if pyUpper l = "INF".data ∨ pyUpper l = "INFINITY".data then some FloatLit.inf
  else if pyUpper l = "NAN".data then some FloatLit.nan
  else
    match splitOnce (fun c => c == '.') l with
    | none => (digitsOnly l).map (fun n => FloatLit.num (n : ℤ) 0)
    | some (a, b) =>
      if (a ++ b).isEmpty then none
      else if a.all Char.isDigit && b.all Char.isDigit then
        some (FloatLit.num ((digitsVal a * 10 ^ b.length + digitsVal b : ℕ) : ℤ)
          (-(b.length : ℤ)))
      else none

/-- Mantissa with an optional leading sign. -/
def signedMantissa : List Char → Option FloatLit
  | [] => none
  | c :: cs =>
    if c = '+' then unsignedMantissa cs
    else if c = '-' then (unsignedMantissa cs).map negLit
    else unsignedMantissa (c :: cs)

/-- Exponent part: optional sign, then digits. -/
def signedExp : List Char → Option ℤ
  | [] => none
  | c :: cs =>
    if c = '+' then (digitsOnly cs).map (fun n => (n : ℤ))
    else if c = '-' then (digitsOnly cs).map (fun n => -(n : ℤ))
    else (digitsOnly (c :: cs)).map (fun n => (n : ℤ))

/-- The literal accepted by Python's `float()` on a character list: optional
surrounding whitespace, optional sign, decimal mantissa or
`inf`/`infinity`/`nan`, optional `e`/`E` integer exponent (which does not
combine with the special literals — `float("infe2")` is a `ValueError`).
`none` models the `ValueError` that `float()` raises on anything else.
(Underscore digit separators are outside the modelled subset.)  This is the
syntax level only: what double the runtime then produces for a finite literal
— nearest-even rounding, overflowing to infinity above ~1.8e308 — belongs to
`PyFloatSem.ofLiteral`. -/
def pyFloatLit (l : List Char) : Option FloatLit :=
  let t := stripWs l
  match splitOnce (fun c => c == 'e' || c == 'E') t with
  | none => signedMantissa t
  | some (m, e) =>
    match signedMantissa m, signedExp e with
    | some (FloatLit.num m0 e0), some x => some (FloatLit.num m0 (e0 + x))
    | _, _ => none

/-- Python's `int()` on a character list: optional surrounding whitespace,
optional sign, digits.  `int` of a string is arbitrary-precision and exact. -/
def pyIntChars (l : List Char) : Option ℤ := signedExp (stripWs l)

/-- `int(number * mult)` for the finite literal `m * 10 ^ e`, evaluated in
exact decimal arithmetic: multiply and truncate toward zero (`Int.tdiv` is
truncating division, matching `int()` of a float).  This is the reference
arithmetic used by `exactSem`. -/
def pyIntOfScaled (m e : ℤ) (mult : ℕ) : ℤ :=
  let mm := m * (mult : ℤ)
  if 0 ≤ e then mm * 10 ^ e.toNat
  else Int.tdiv mm (10 ^ (-e).toNat)

/-- The value semantics of the Python builtins `float()` and `int()` used by
`parse_claps`.  These builtins live in the Python runtime, outside this
repository, so — like the scikit-learn fit (`FitFn`) — they are kept as a
parameter: `ofLiteral` maps a parsed literal to the runtime's float value
(binary64 rounds the exact decimal to nearest-even and overflows to
infinity), and `intTimes x mult` is `int(x * mult)` (binary64 multiply, then
truncation toward zero; raises `OverflowError` for an infinite `x` and
`ValueError` for `nan`). -/
structure PyFloatSem (F : Type) where
  ofLiteral : FloatLit → F
  intTimes : F → ℕ → Except PyExc ℤ

/-- `except ValueError: return 0` (src/utils.py lines 110-111): a `ValueError`
raised inside the `try` block is caught and turned into 0; any other
exception — `OverflowError` in particular — propagates. -/
def catchValueError (r : Except PyExc ℤ) : Except PyExc ℤ :=
  match r with
  | Except.error PyExc.valueError => Except.ok 0
  | r => r

/-- The exact-decimal reference runtime: a finite literal keeps its exact
value and `int(x * mult)` is computed in exact arithmetic; `inf` makes
`int()` overflow and `nan` makes it raise `ValueError`, as in Python.  It
agrees with the binary64 runtime whenever the literal's value and the scaled
product are exactly representable doubles (for example integers below
`2 ^ 53`); it diverges where the double parse or multiply rounds, and it maps
no finite literal to infinity (binary64 overflows above ~1.8e308). -/
def exactSem : PyFloatSem FloatLit :=
  ⟨id, fun f mult =>
    match f with
    | FloatLit.num m e => Except.ok (pyIntOfScaled m e mult)
    | FloatLit.inf => Except.error PyExc.overflowError
    | FloatLit.ninf => Except.error PyExc.overflowError
    | FloatLit.nan => Except.error PyExc.valueError⟩

/-- `parse_claps` of src/utils.py (lines 83-111), parameterised by the
runtime float semantics `sem`: the empty string gives 0; the string is
stripped and upper-cased; if it contains `K`, the string with every `K`
removed is parsed by `float()` and `int(number * 1000)` is returned (this
branch takes precedence over `M`); else if it contains `M`, scaled by
1000000; otherwise plain `int()`.  A `ValueError` (unparseable float,
`int(nan)`) is caught and gives 0; the `OverflowError` that `int()` raises on
an infinite value is not caught by `except ValueError` (line 110) and
propagates out of the function. -/
def parse_claps {F : Type} (sem : PyFloatSem F) (s : String) : Except PyExc ℤ :=
  if s = "" then Except.ok 0
  else
    let u := pyUpper (stripWs s.data)
    if 'K' ∈ u then
      match pyFloatLit (u.filter (fun c => !(c == 'K'))) with
      | some f => catchValueError (sem.intTimes (sem.ofLiteral f) 1000)
      | none => Except.ok 0
    else if 'M' ∈ u then
      match pyFloatLit (u.filter (fun c => !(c == 'M'))) with
      | some f => catchValueError (sem.intTimes (sem.ofLiteral f) 1000000)
      | none => Except.ok 0
    else
      match pyIntChars u with
      | some n => Except.ok n
      | none => Except.ok 0

/-- The ASCII digits, for quantifying over digit strings. -/
def digitChars : List Char := ['0', '1', '2', '3', '4', '5', '6', '7', '8', '9']

/-- Number of documents in the loaded corpus (0 when `df` is `None`). -/
def corpusSize (st : ApiState) : ℕ :=
  (st.df.map (fun fr => fr.docs.length)).getD 0

/-! ### Order-relation facts -/

theorem clapsLe_total : ∀ x y : Option Int, clapsLe x y ∨ clapsLe y x
  | none, _ => Or.inl trivial
  | some _, none => Or.inr trivial
  | some m, some n => le_total m n

theorem clapsLe_trans {x y z : Option Int} (h1 : clapsLe x y) (h2 : clapsLe y z) :
    clapsLe x z := by
  cases x with
  | none => trivial
  | some m =>
    cases y with
    | none => exact h1.elim
    | some n =>
      cases z with
      | none => exact h2.elim
      | some p => exact le_trans h1 h2

theorem keyLex_total {α β : Type} [LinearOrder β] (f : α → β) (s : α → α → Prop)
    (hs : ∀ a b, s a b ∨ s b a) (a b : α) : keyLex f s a b ∨ keyLex f s b a := by
  rcases lt_trichotomy (f a) (f b) with h | h | h
  · exact Or.inr (Or.inl h)
  · rcases hs a b with h2 | h2
    · exact Or.inl (Or.inr ⟨h, h2⟩)
    · exact Or.inr (Or.inr ⟨h.symm, h2⟩)
  · exact Or.inl (Or.inl h)

theorem keyLex_trans {α β : Type} [LinearOrder β] (f : α → β) (s : α → α → Prop)
    (hs : ∀ {x y z : α}, s x y → s y z → s x z) {a b c : α}
    (h1 : keyLex f s a b) (h2 : keyLex f s b c) : keyLex f s a c := by
  rcases h1 with h1 | ⟨e1, s1⟩
  · rcases h2 with h2 | ⟨e2, s2⟩
    · exact Or.inl (lt_trans h2 h1)
    · exact Or.inl (e2 ▸ h1)
  · rcases h2 with h2 | ⟨e2, s2⟩
    · exact Or.inl (by rw [e1]; exact h2)
    · exact Or.inr ⟨e1.trans e2, hs s1 s2⟩

theorem rankRel_total {α : Type} [LinearOrder α] (a b : Doc × α) :
    rankRel α a b ∨ rankRel α b a := by
  unfold rankRel
  exact @keyLex_total (Doc × α) α _ Prod.snd
    (fun x y => clapsLe y.1.claps x.1.claps)
    (fun x y => clapsLe_total y.1.claps x.1.claps) a b

theorem rankRel_trans {α : Type} [LinearOrder α] {a b c : Doc × α}
    (h1 : rankRel α a b) (h2 : rankRel α b c) : rankRel α a c := by
  unfold rankRel at h1 h2 ⊢
  exact @keyLex_trans (Doc × α) α _ Prod.snd
    (fun x y => clapsLe y.1.claps x.1.claps)
    (fun {x y z} hxy hyz => clapsLe_trans hyz hxy) a b c h1 h2

theorem deployRel_total (a b : DeployRow × ℕ) : deployRel a b ∨ deployRel b a := by
  unfold deployRel
  exact @keyLex_total (DeployRow × ℕ) ℕ _ Prod.snd
    (fun x y => y.1.claps ≤ x.1.claps)
    (fun x y => le_total y.1.claps x.1.claps) a b

theorem deployRel_trans {a b c : DeployRow × ℕ}
    (h1 : deployRel a b) (h2 : deployRel b c) : deployRel a c := by
  unfold deployRel at h1 h2 ⊢
  exact @keyLex_trans (DeployRow × ℕ) ℕ _ Prod.snd
    (fun x y => y.1.claps ≤ x.1.claps)
    (fun {x y z} hxy hyz => le_trans hyz hxy) a b c h1 h2

/-! ### Stable-sort congruence -/

theorem orderedInsert_congr {α : Type} (r s : α → α → Prop)
    [DecidableRel r] [DecidableRel s] (x : α) (l : List α)
    (h : ∀ b ∈ l, r x b ↔ s x b) :
    List.orderedInsert r x l = List.orderedInsert s x l := by
  induction l with
  | nil => rfl
  | cons b t ih =>
    by_cases hb : r x b
    · rw [List.orderedInsert, List.orderedInsert, if_pos hb,
        if_pos ((h b (by simp)).mp hb)]
    · rw [List.orderedInsert, List.orderedInsert, if_neg hb,
        if_neg (fun hs2 => hb ((h b (by simp)).mpr hs2)),
        ih (fun c hc => h c (by simp [hc]))]

theorem insertionSort_congr {α : Type} (r s : α → α → Prop)
    [DecidableRel r] [DecidableRel s] (l : List α)
    (h : ∀ a ∈ l, ∀ b ∈ l, (r a b ↔ s a b)) :
    List.insertionSort r l = List.insertionSort s l := by
  induction l with
  | nil => rfl
  | cons x t ih =>
    have ht : List.insertionSort r t = List.insertionSort s t :=
      ih (fun a ha b hb => h a (by simp [ha]) b (by simp [hb]))
    rw [List.insertionSort, List.insertionSort, ← ht]
    exact orderedInsert_congr r s x _ (fun b hb =>
      h x (by simp) b (by simp [(List.mem_insertionSort r).mp hb]))

/-! ### searchCore facts -/

theorem mem_searchCore {α : Type} [LinearOrder α] [Zero α]
    {rows : List (Doc × α)} {k : ℕ} {p : Doc × α}
    (hp : p ∈ searchCore rows k) : p ∈ rows := by
  simp only [searchCore] at hp
  have h1 := List.take_subset _ _ hp
  have h2 := (List.mem_insertionSort _).mp h1
  split at h2
  · exact h2
  · exact (List.mem_filter.mp h2).1

theorem searchCore_length_le {α : Type} [LinearOrder α] [Zero α]
    (rows : List (Doc × α)) (k : ℕ) :
    (searchCore rows k).length ≤ min k rows.length := by
  simp only [searchCore]
  split
  · rw [List.length_take, List.length_insertionSort]
  · rw [List.length_take, List.length_insertionSort]
    have := List.length_filter_le (fun r => decide (0 < r.2)) rows
    omega

theorem searchCore_fallback {α : Type} [LinearOrder α] [Zero α]
    (rows : List (Doc × α)) (k : ℕ) (hz : ∀ p ∈ rows, p.2 = 0) :
    searchCore rows k = (clapsRank rows).take k
    ∧ (searchCore rows k).length = min k rows.length := by
  have hfil : rows.filter (fun r => decide (0 < r.2)) = [] := by
    rw [List.filter_eq_nil_iff]
    intro a ha
    simp [hz a ha]
  have hcore : searchCore rows k = (List.insertionSort (rankRel α) rows).take k := by
    simp [searchCore, hfil]
  have hcongr : List.insertionSort (rankRel α) rows
      = List.insertionSort (clapsOnlyRel α) rows := by
    apply insertionSort_congr
    intro a ha b hb
    simp [rankRel, keyLex, clapsOnlyRel, hz a ha, hz b hb]
  constructor
  · rw [hcore, hcongr]; rfl
  · rw [hcore, List.length_take, List.length_insertionSort]

theorem round4_zero : round4 0 = 0 := by
  norm_num [round4, pyRoundInt, qfloor]

/-! ### Claims C3, C4, C6, C7 -/

/-- Claim C3 (confirmed): for every query with a requested result count, the
number of results returned is at most
min(requested limit, the hard ceiling 50, corpus size); the ceiling is applied
to the caller's limit before the search runs. -/
theorem claim_c3 (st : ApiState) (sims : List ℚ) (limit : ℕ) :
    ((search st sims limit).1).length ≤ min limit (min 50 (corpusSize st)) := by
  unfold search
  cases hdf : st.df with
  | none => simp [search_articles, hdf]
  | some fr =>
    by_cases he : fr.docs.isEmpty
    · simp [search_articles, hdf, he]
    · have hs : (search_articles st sims (min limit 50)).1
          = (searchCore (fr.docs.zip sims) (min limit 50)).map formatRow := by
        simp [search_articles, hdf, he]
      rw [hs, List.length_map]
      have h1 := searchCore_length_le (fr.docs.zip sims) (min limit 50)
      have h2 : (fr.docs.zip sims).length ≤ fr.docs.length := by
        rw [List.length_zip]; omega
      have h3 : corpusSize st = fr.docs.length := by simp [corpusSize, hdf]
      omega

/-- Claim C4 (confirmed): a missing corpus source loads as an empty frame
without error, an existing source with zero rows also builds successfully, and
every query against an empty frame returns the empty result list. -/
theorem claim_c4 (fit : FitFn) (sims : List ℚ) (k : ℕ) (t : Table)
    (hcols : textCols.find? (fun c => !t.cols.contains c) = none)
    (hrows : t.rows = []) :
    load_data fit none = Except.ok ⟨some ⟨[], none⟩, none, none⟩
    ∧ (∃ v m, load_data fit (some t) = Except.ok ⟨some ⟨[], none⟩, some v, some m⟩)
    ∧ (∀ st : ApiState, st.df = some ⟨[], none⟩ →
        search_articles st sims k = ([], st)) := by
  refine ⟨rfl, ⟨(fit []).1, (fit []).2, ?_⟩, ?_⟩
  · simp only [load_data]
    rw [hcols, hrows]
    rfl
  · intro st h
    simp [search_articles, h]

/-- Claim C6 (corrected): `query` never raises for a well-formed string input;
however, invoked before `load_data` has run (all globals still `None`) it
returns the empty list rather than raising `IndexNotBuilt`. -/
theorem claim_c6 (st : ApiState) (sims : List ℚ) (k : ℕ) :
    (searchArticlesExc st sims k).isOk = true
    ∧ searchArticlesExc ⟨none, none, none⟩ sims k = Except.ok [] :=
  ⟨rfl, rfl⟩

/-- Claim C6 counterexample: before any build, the query path returns
`Except.ok []` — it does not raise `IndexNotBuilt` as the claim states. -/
theorem claim_c6_counterexample :
    searchArticlesExc ⟨none, none, none⟩ [] 10 = Except.ok []
    ∧ searchArticlesExc ⟨none, none, none⟩ [] 10
        ≠ Except.error SearchError.IndexNotBuilt :=
  ⟨rfl, fun h => Except.noConfusion h⟩

/-- Claim C7 (corrected): a query leaves the vectorizer, the idf weights, the
document vectors and the documents of the corpus unchanged, and adds or
removes no document — but it is not read-only: it writes the computed
similarity vector into the `'similarity'` column of the shared global
DataFrame. -/
theorem claim_c7 (st : ApiState) (sims : List ℚ) (k : ℕ) :
    (search_articles st sims k).2.vectorizer = st.vectorizer
    ∧ (search_articles st sims k).2.tfidfMatrix = st.tfidfMatrix
    ∧ (search_articles st sims k).2.df.map Frame.docs = st.df.map Frame.docs
    ∧ (search_articles st sims k).2.df.isSome = st.df.isSome
    ∧ (∀ fr, st.df = some fr → fr.docs.isEmpty = false →
        (search_articles st sims k).2
          = ⟨some ⟨fr.docs, some sims⟩, st.vectorizer, st.tfidfMatrix⟩) := by
  cases hdf : st.df with
  | none =>
    have hstep : search_articles st sims k = ([], st) := by
      simp [search_articles, hdf]
    refine ⟨by rw [hstep], by rw [hstep], by simp [hstep, hdf],
      by simp [hstep, hdf], ?_⟩
    intro fr h
    exact absurd h (by simp)
  | some fr =>
    by_cases he : fr.docs.isEmpty
    · have hstep : search_articles st sims k = ([], st) := by
        simp [search_articles, hdf, he]
      refine ⟨by rw [hstep], by rw [hstep], by simp [hstep, hdf],
        by simp [hstep, hdf], ?_⟩
      intro fr2 h h2
      injection h with h
      rw [← h] at h2
      rw [he] at h2
      exact absurd h2 (by simp)
    · have hstep : (search_articles st sims k).2
          = ⟨some ⟨fr.docs, some sims⟩, st.vectorizer, st.tfidfMatrix⟩ := by
        simp [search_articles, hdf, he]
      refine ⟨by rw [hstep], by rw [hstep], ?_, by rw [hstep]; rfl, ?_⟩
      · rw [hstep]; rfl
      · intro fr2 h h2
        injection h with h
        rw [← h]
        exact hstep

/-- Claim C7 counterexample: a concrete query against a one-document corpus
changes the global state — the `'similarity'` column appears in the shared
DataFrame, so the query is not a pure read-only operation. -/
theorem claim_c7_counterexample :
    (search_articles
        ⟨some ⟨[⟨none, none, some 1, none, "t"⟩], none⟩, none, none⟩ [1] 10).2
      ≠ ⟨some ⟨[⟨none, none, some 1, none, "t"⟩], none⟩, none, none⟩ := by
  decide

/-- Witness for claim C4 at a concrete missing source. -/
theorem claim_c4_witness :
    load_data (fun _ => (⟨[], []⟩, [])) none
      = Except.ok ⟨some ⟨[], none⟩, none, none⟩ :=
  (claim_c4 (fun _ => (⟨[], []⟩, [])) [] 10
    ⟨["url", "title", "subtitle", "text", "keywords"], []⟩ (by decide) rfl).1

/-- Witness for claim C7 at a concrete one-document state: the state after the
query carries the written similarity column. -/
theorem claim_c7_witness :
    (search_articles
        ⟨some ⟨[⟨none, none, some 1, none, "t"⟩], none⟩, none, none⟩ [1] 10).2
      = ⟨some ⟨[⟨none, none, some 1, none, "t"⟩], some [1]⟩, none, none⟩ :=
  (claim_c7 ⟨some ⟨[⟨none, none, some 1, none, "t"⟩], none⟩, none, none⟩
      [1] 10).2.2.2.2
    ⟨[⟨none, none, some 1, none, "t"⟩], none⟩ rfl (by decide)

/-! ### Claims C1 and C2 -/

/-- Claim C1 (corrected): if at least one document has positive similarity,
the result rows contain only documents with similarity > 0; if no document
has positive similarity, the result is the first `min(top_k, corpus size)`
documents of the entire corpus ranked by descending claps (not the entire
corpus: `head(top_k)` truncates the fallback too), with similarity reported as
0 for every result. -/
theorem claim_c1 (docs : List Doc) (sims : List ℚ) (k : ℕ)
    (hlen : sims.length = docs.length) (hnn : ∀ s ∈ sims, 0 ≤ s) :
    ((∃ p ∈ docs.zip sims, 0 < p.2) →
      ∀ p ∈ searchCore (docs.zip sims) k, 0 < p.2)
    ∧ ((∀ p ∈ docs.zip sims, ¬ 0 < p.2) →
        searchCore (docs.zip sims) k = (clapsRank (docs.zip sims)).take k
        ∧ (searchCore (docs.zip sims) k).length = min k docs.length
        ∧ ∀ r ∈ (searchCore (docs.zip sims) k).map formatRow,
            r.similarity_score = 0) := by
  constructor
  · rintro ⟨q, hq, hq2⟩ p hp
    have hqf : q ∈ (docs.zip sims).filter (fun r => decide (0 < r.2)) :=
      List.mem_filter.mpr ⟨hq, by simpa using hq2⟩
    have hne : ((docs.zip sims).filter (fun r => decide (0 < r.2))).isEmpty
        = false := by
      cases hfe : (docs.zip sims).filter (fun r => decide (0 < r.2)) with
      | nil => rw [hfe] at hqf; exact absurd hqf (by simp)
      | cons a l => rfl
    simp only [searchCore, hne, Bool.false_eq_true, if_false] at hp
    have h1 := List.take_subset _ _ hp
    have h2 := (List.mem_insertionSort _).mp h1
    simpa using (List.mem_filter.mp h2).2
  · intro hz
    have hz0 : ∀ p ∈ docs.zip sims, p.2 = 0 := fun p hp =>
      le_antisymm (not_lt.mp (hz p hp)) (hnn p.2 (List.of_mem_zip hp).2)
    obtain ⟨h1, h2⟩ := searchCore_fallback (docs.zip sims) k hz0
    refine ⟨h1, ?_, ?_⟩
    · rw [h2, List.length_zip, hlen, Nat.min_self]
    · intro r hr
      obtain ⟨p, hp, rfl⟩ := List.mem_map.mp hr
      have hp0 : p.2 = 0 := hz0 p (mem_searchCore hp)
      simp [formatRow, hp0, round4_zero]

/-- Claim C1 counterexample: a two-document corpus queried with limit 1 and no
positive similarity returns a single result, not the entire corpus — the
fallback is truncated by `head(top_k)` like any other result list. -/
theorem claim_c1_counterexample :
    (search ⟨some ⟨[⟨none, none, some 1, none, ""⟩, ⟨none, none, some 2, none, ""⟩],
        none⟩, none, none⟩ [0, 0] 1).1.length = 1
    ∧ corpusSize ⟨some ⟨[⟨none, none, some 1, none, ""⟩,
        ⟨none, none, some 2, none, ""⟩], none⟩, none, none⟩ = 2 := by
  decide

/-- Witness for claim C1 at a concrete one-document corpus with zero
similarity: the fallback branch produces the popularity ranking. -/
theorem claim_c1_witness :
    searchCore [(⟨none, none, some 3, none, ""⟩, (0 : ℚ))] 7
      = (clapsRank [(⟨none, none, some 3, none, ""⟩, (0 : ℚ))]).take 7 :=
  ((claim_c1 [⟨none, none, some 3, none, ""⟩] [0] 7 (by decide)
    (by decide)).2 (by decide)).1

/-- Claim C2 (corrected): the returned rows are sorted with similarity
descending as primary key and claps descending as tie-break, so equal
similarity implies descending-claps order; but the order of documents that tie
on both similarity and claps depends on the input order (the sort is stable),
so it is not deterministic "regardless of input order". -/
theorem claim_c2 (docs : List Doc) (sims : List ℚ) (k i j : ℕ)
    (hij : i < j) (hj : j < (searchCore (docs.zip sims) k).length) :
    ((searchCore (docs.zip sims) k).get ⟨j, hj⟩).2
        < ((searchCore (docs.zip sims) k).get ⟨i, Nat.lt_trans hij hj⟩).2
    ∨ (((searchCore (docs.zip sims) k).get ⟨i, Nat.lt_trans hij hj⟩).2
          = ((searchCore (docs.zip sims) k).get ⟨j, hj⟩).2
        ∧ clapsLe ((searchCore (docs.zip sims) k).get ⟨j, hj⟩).1.claps
            ((searchCore (docs.zip sims) k).get ⟨i, Nat.lt_trans hij hj⟩).1.claps) := by
  haveI : IsTotal (Doc × ℚ) (rankRel ℚ) := ⟨rankRel_total⟩
  haveI : IsTrans (Doc × ℚ) (rankRel ℚ) := ⟨fun _ _ _ h1 h2 => rankRel_trans h1 h2⟩
  have hsorted : List.Sorted (rankRel ℚ) (searchCore (docs.zip sims) k) := by
    simp only [searchCore]
    exact List.Pairwise.sublist (List.take_sublist _ _)
      (List.sorted_insertionSort _ _)
  exact hsorted.rel_get_of_lt hij

/-- Claim C2 counterexample: two documents with equal similarity and equal
claps appear in input order (the sort is stable), so reversing the corpus
order reverses the returned order — the order of equal-similarity documents is
not deterministic regardless of input order. -/
theorem claim_c2_counterexample :
    searchCore [(⟨some "a", none, some 5, none, ""⟩, (1 : ℚ)),
        (⟨some "b", none, some 5, none, ""⟩, 1)] 10
      = [(⟨some "a", none, some 5, none, ""⟩, (1 : ℚ)),
        (⟨some "b", none, some 5, none, ""⟩, 1)]
    ∧ searchCore [(⟨some "b", none, some 5, none, ""⟩, (1 : ℚ)),
        (⟨some "a", none, some 5, none, ""⟩, 1)] 10
      = [(⟨some "b", none, some 5, none, ""⟩, (1 : ℚ)),
        (⟨some "a", none, some 5, none, ""⟩, 1)]
    ∧ searchCore [(⟨some "a", none, some 5, none, ""⟩, (1 : ℚ)),
        (⟨some "b", none, some 5, none, ""⟩, 1)] 10
      ≠ searchCore [(⟨some "b", none, some 5, none, ""⟩, (1 : ℚ)),
        (⟨some "a", none, some 5, none, ""⟩, 1)] 10 := by
  decide

/-- Witness for claim C2 at a concrete two-document result list. -/
theorem claim_c2_witness :
    ((searchCore [(⟨some "a", none, some 5, none, ""⟩, (1 : ℚ)),
        (⟨some "b", none, some 4, none, ""⟩, 1)] 10).get ⟨1, by decide⟩).2
        < ((searchCore [(⟨some "a", none, some 5, none, ""⟩, (1 : ℚ)),
        (⟨some "b", none, some 4, none, ""⟩, 1)] 10).get ⟨0, by decide⟩).2
    ∨ (((searchCore [(⟨some "a", none, some 5, none, ""⟩, (1 : ℚ)),
        (⟨some "b", none, some 4, none, ""⟩, 1)] 10).get ⟨0, by decide⟩).2
          = ((searchCore [(⟨some "a", none, some 5, none, ""⟩, (1 : ℚ)),
        (⟨some "b", none, some 4, none, ""⟩, 1)] 10).get ⟨1, by decide⟩).2
        ∧ clapsLe ((searchCore [(⟨some "a", none, some 5, none, ""⟩, (1 : ℚ)),
        (⟨some "b", none, some 4, none, ""⟩, 1)] 10).get ⟨1, by decide⟩).1.claps
            ((searchCore [(⟨some "a", none, some 5, none, ""⟩, (1 : ℚ)),
        (⟨some "b", none, some 4, none, ""⟩, 1)] 10).get ⟨0, by decide⟩).1.claps) :=
  claim_c2 [⟨some "a", none, some 5, none, ""⟩, ⟨some "b", none, some 4, none, ""⟩]
    [1, 1] 10 0 1 (by decide) (by decide)

/-! ### Claim C8 -/

theorem dot_eq_zero_left {q : List ℝ} (hq : ∀ x ∈ q, x = 0) :
    ∀ d, dot q d = 0 := by
  induction q with
  | nil => intro d; cases d <;> rfl
  | cons x xs ih =>
    intro d
    cases d with
    | nil => rfl
    | cons b bs =>
      have hx : x = 0 := hq x (by simp)
      have ih2 := ih (fun y hy => hq y (by simp [hy])) bs
      simp [dot, hx, ih2]

theorem transform_zero {stop vocab : List String} {idf : List ℝ}
    {query : String} (hnv : ∀ t ∈ tokenize stop query, t ∉ vocab) :
    ∀ x ∈ transform vocab idf stop query, x = 0 := by
  intro x hx
  obtain ⟨p, hp, rfl⟩ := List.mem_map.mp hx
  have hv : p.1 ∈ vocab := (List.of_mem_zip hp).1
  have hcount : List.count p.1 (tokenize stop query) = 0 :=
    List.count_eq_zero.mpr (fun ht => hnv p.1 ht hv)
  simp [hcount]

theorem cosineSim_zero_left {q : List ℝ} (hq : ∀ x ∈ q, x = 0) (d : List ℝ) :
    cosineSim q d = 0 := by
  unfold cosineSim
  rw [dot_eq_zero_left hq d, zero_div]

/-- Claim C8 (confirmed): a query that tokenizes to no vocabulary term yields
the all-zero query vector, every cosine similarity is 0, no document passes
the `> 0` filter (the popularity-only fallback is taken), and the result is
the popularity ranking truncated to `top_k` — results, not an error. -/
theorem claim_c8 (stop vocab : List String) (idf : List ℝ)
    (mat : List (List ℝ)) (docs : List Doc) (query : String) (k : ℕ)
    (hnv : ∀ t ∈ tokenize stop query, t ∉ vocab)
    (hlen : mat.length = docs.length) :
    (∀ x ∈ transform vocab idf stop query, x = 0)
    ∧ ((docs.zip (querySims vocab idf stop query mat)).filter
        (fun r => decide (0 < r.2)) = [])
    ∧ searchCore (docs.zip (querySims vocab idf stop query mat)) k
        = (clapsRank (docs.zip (querySims vocab idf stop query mat))).take k
    ∧ (searchCore (docs.zip (querySims vocab idf stop query mat)) k).length
        = min k docs.length := by
  have hq : ∀ x ∈ transform vocab idf stop query, x = 0 := transform_zero hnv
  have hsims : ∀ s ∈ querySims vocab idf stop query mat, s = 0 := by
    intro s hs
    obtain ⟨d, hd, rfl⟩ := List.mem_map.mp hs
    exact cosineSim_zero_left hq d
  have hz0 : ∀ p ∈ docs.zip (querySims vocab idf stop query mat), p.2 = 0 :=
    fun p hp => hsims p.2 (List.of_mem_zip hp).2
  obtain ⟨h1, h2⟩ := searchCore_fallback _ k hz0
  refine ⟨hq, ?_, h1, ?_⟩
  · rw [List.filter_eq_nil_iff]
    intro a ha
    simp [hz0 a ha]
  · rw [h2, List.length_zip]
    have hql : (querySims vocab idf stop query mat).length = docs.length := by
      simp [querySims, hlen]
    rw [hql, Nat.min_self]

/-- Witness for claim C8 at a concrete vocabulary and query sharing no term. -/
theorem claim_c8_witness :
    (searchCore ([(⟨none, none, some 1, none, "t"⟩ : Doc)].zip
        (querySims ["x"] [1] [] "zz" [[1]])) 10).length = min 10 1 :=
  (claim_c8 [] ["x"] [1] [[1]] [⟨none, none, some 1, none, "t"⟩] "zz" 10
    (by decide) (by decide)).2.2.2

/-! ### Claim C10 -/

/-- Claim C10 (confirmed): in the deployment search every returned result
comes from a row in which at least one lowercased query word occurs as a
substring of the concatenated title/text/keywords; when no row matches, the
result is empty (no popularity fallback); and the scored candidates are
ordered by descending match count, then descending claps. -/
theorem claim_c10 (rows : List DeployRow) (query : String) (k : ℕ) :
    (∀ res ∈ search_simple rows query k, ∃ r ∈ rows,
        res = ⟨r.url, r.title, r.claps⟩
        ∧ ∃ w ∈ queryWords query, isSub w (docText r) = true)
    ∧ ((∀ r ∈ rows, ∀ w ∈ queryWords query, isSub w (docText r) = false) →
        search_simple rows query k = [])
    ∧ List.Pairwise
        (fun p q : DeployRow × ℕ =>
          q.2 < p.2 ∨ (p.2 = q.2 ∧ q.1.claps ≤ p.1.claps))
        (List.insertionSort deployRel (scoredRows rows query)) := by
  refine ⟨?_, ?_, ?_⟩
  · intro res hres
    obtain ⟨p, hp, rfl⟩ := List.mem_map.mp hres
    have h1 : p ∈ List.insertionSort deployRel (scoredRows rows query) :=
      List.take_subset _ _ hp
    have h2 : p ∈ scoredRows rows query := (List.mem_insertionSort _).mp h1
    obtain ⟨r, hr, hcond⟩ := List.mem_filterMap.mp h2
    simp only [] at hcond
    by_cases hsc : 0 < scoreOf query r
    · rw [if_pos hsc] at hcond
      injection hcond with hcond
      obtain ⟨w, hw, hsub⟩ := List.countP_pos_iff.mp hsc
      exact ⟨r, hr, by rw [← hcond], ⟨w, hw, hsub⟩⟩
    · rw [if_neg hsc] at hcond
      exact absurd hcond (by simp)
  · intro hnone
    have hsc : scoredRows rows query = [] := by
      rw [scoredRows, List.filterMap_eq_nil_iff]
      intro r hr
      have hz : scoreOf query r = 0 :=
        List.countP_eq_zero.mpr (fun w hw => by simp [hnone r hr w hw])
      simp [hz]
    simp [search_simple, hsc]
  · haveI : IsTotal (DeployRow × ℕ) deployRel := ⟨deployRel_total⟩
    haveI : IsTrans (DeployRow × ℕ) deployRel :=
      ⟨fun _ _ _ h1 h2 => deployRel_trans h1 h2⟩
    exact List.sorted_insertionSort deployRel (scoredRows rows query)

/-- Witness for claim C10 at a concrete corpus with no matching word. -/
theorem claim_c10_witness :
    search_simple [⟨"u1", "Cats are great", "text", "pets", 10⟩] "fish" 10 = [] :=
  (claim_c10 [⟨"u1", "Cats are great", "text", "pets", 10⟩] "fish" 10).2.1
    (by decide)

/-! ### Claim C5 -/

/-- Claim C5 (corrected): missing values behave as the claim says — text
fields become the empty string in the derived search text, a missing `claps`
becomes 0 and a missing author becomes `"Unknown"` in the formatted result —
but an entirely absent optional column is not tolerated: `load_data` raises
`KeyError` when any of the four text columns is missing from the source. -/
theorem claim_c5 (fit : FitFn) (t : Table) (r : Row) (sim : ℚ)
    (hmiss : ∃ c ∈ textCols, t.cols.contains c = false) :
    (∃ c, load_data fit (some t) = Except.error (LoadError.keyError c))
    ∧ (r.title = none → r.subtitle = none → r.text = none → r.keywords = none →
        (mkDoc r).searchText = "   ")
    ∧ (r.claps = none → (formatRow (mkDoc r, sim)).claps = 0)
    ∧ (r.author_name = none → (formatRow (mkDoc r, sim)).author = "Unknown") := by
  refine ⟨?_, ?_, ?_, ?_⟩
  · obtain ⟨c, hc, hcf⟩ := hmiss
    have hsome : (textCols.find? (fun c => !t.cols.contains c)).isSome := by
      rw [List.find?_isSome]
      exact ⟨c, hc, by simpa using hcf⟩
    obtain ⟨c2, hc2⟩ := Option.isSome_iff_exists.mp hsome
    exact ⟨c2, by simp only [load_data]; rw [hc2]⟩
  · intro h1 h2 h3 h4
    simp [mkDoc, h1, h2, h3, h4]
  · intro h
    simp [formatRow, mkDoc, h]
  · intro h
    simp [formatRow, mkDoc, h]

/-- Claim C5 counterexample: a source that has `url` and `title` but lacks the
`subtitle` column makes `load_data` fail with `KeyError`, contradicting "the
loader tolerates an optional column being entirely absent". -/
theorem claim_c5_counterexample :
    load_data (fun _ => (⟨[], []⟩, [])) (some ⟨["url", "title"], []⟩)
      = Except.error (LoadError.keyError "subtitle") := by
  rfl

/-- Witness for claim C5 at a concrete row with all optional values missing. -/
theorem claim_c5_witness :
    (mkDoc ⟨some "u", none, none, none, none, none, none⟩).searchText = "   "
    ∧ (formatRow (mkDoc ⟨some "u", none, none, none, none, none, none⟩, 0)).claps = 0
    ∧ (formatRow (mkDoc ⟨some "u", none, none, none, none, none, none⟩, 0)).author
        = "Unknown" :=
  have h := claim_c5 (fun _ => (⟨[], []⟩, [])) ⟨["url", "title"], []⟩
    ⟨some "u", none, none, none, none, none, none⟩ 0 (by decide)
  ⟨h.2.1 rfl rfl rfl rfl, h.2.2.1 rfl, h.2.2.2 rfl⟩

/-! ### Claim C9: character-class facts and parsing lemmas -/

theorem digit_wsp : ∀ c ∈ digitChars, wsp c = false := by decide

theorem digit_upChar : ∀ c ∈ digitChars, upChar c = c := by decide

theorem digit_isDigit : ∀ c ∈ digitChars, c.isDigit = true := by decide

theorem digit_beq_dot : ∀ c ∈ digitChars, (c == '.') = false := by decide

theorem digit_beq_e : ∀ c ∈ digitChars, ((c == 'e') || (c == 'E')) = false := by
  decide

theorem digit_beq_K : ∀ c ∈ digitChars, (c == 'K') = false := by decide

theorem digit_beq_M : ∀ c ∈ digitChars, (c == 'M') = false := by decide

theorem digit_ne_sign : ∀ c ∈ digitChars, c ≠ '+' ∧ c ≠ '-' := by decide

theorem dropWhile_eq_self_all {α : Type} {p : α → Bool} {l : List α}
    (h : ∀ c ∈ l, p c = false) : l.dropWhile p = l := by
  cases l with
  | nil => rfl
  | cons c t => simp [List.dropWhile_cons, h c (by simp)]

theorem stripWs_eq_self {l : List Char} (h : ∀ c ∈ l, wsp c = false) :
    stripWs l = l := by
  unfold stripWs
  rw [dropWhile_eq_self_all h,
    dropWhile_eq_self_all (fun c hc => h c (List.mem_reverse.mp hc))]
  exact List.reverse_reverse l

theorem splitOnce_eq_none {p : Char → Bool} {l : List Char}
    (h : ∀ c ∈ l, p c = false) : splitOnce p l = none := by
  induction l with
  | nil => rfl
  | cons c t ih =>
    simp only [splitOnce]
    rw [h c (by simp)]
    simp [ih (fun x hx => h x (by simp [hx]))]

theorem splitOnce_append {p : Char → Bool} {xs : List Char} {y : Char}
    {ys : List Char} (hxs : ∀ c ∈ xs, p c = false) (hy : p y = true) :
    splitOnce p (xs ++ y :: ys) = some (xs, ys) := by
  induction xs with
  | nil => simp [splitOnce, hy]
  | cons c t ih =>
    simp only [List.cons_append, splitOnce]
    rw [hxs c (by simp)]
    simp [ih (fun x hx => hxs x (by simp [hx]))]

theorem digitsOnly_digits {l : List Char} (h : ∀ c ∈ l, c ∈ digitChars)
    (hne : l ≠ []) : digitsOnly l = some (digitsVal l) := by
  have h1 : l.isEmpty = false := by
    cases l with
    | nil => exact absurd rfl hne
    | cons c t => rfl
  have h2 : l.all Char.isDigit = true :=
    List.all_eq_true.mpr (fun c hc => digit_isDigit c (h c hc))
  simp [digitsOnly, h1, h2]

theorem map_upChar_digits {l : List Char} (h : ∀ c ∈ l, c ∈ digitChars) :
    pyUpper l = l := by
  induction l with
  | nil => rfl
  | cons c t ih =>
    have ih2 := ih (fun x hx => h x (by simp [hx]))
    simp only [pyUpper] at ih2 ⊢
    rw [List.map_cons, digit_upChar c (h c (by simp)), ih2]

theorem unsignedMantissa_dot {a b : List Char}
    (ha : ∀ c ∈ a, c ∈ digitChars) (hb : ∀ c ∈ b, c ∈ digitChars)
    (hne : a ≠ []) :
    unsignedMantissa (a ++ '.' :: b)
      = some (FloatLit.num ((digitsVal a * 10 ^ b.length + digitsVal b : ℕ) : ℤ)
          (-(b.length : ℤ))) := by
  have hup2 : pyUpper (a ++ '.' :: b) = a ++ '.' :: b := by
    simp only [pyUpper, List.map_append, List.map_cons]
    rw [show List.map upChar a = a from map_upChar_digits ha,
      show List.map upChar b = b from map_upChar_digits hb,
      show upChar '.' = '.' from by decide]
  have hinf : ¬(pyUpper (a ++ '.' :: b) = "INF".data
      ∨ pyUpper (a ++ '.' :: b) = "INFINITY".data) := by
    rw [hup2]
    have hdotmem : '.' ∈ a ++ '.' :: b := by simp
    rintro (h | h) <;> (rw [h] at hdotmem; exact absurd hdotmem (by decide))
  have hnan : ¬(pyUpper (a ++ '.' :: b) = "NAN".data) := by
    rw [hup2]
    have hdotmem : '.' ∈ a ++ '.' :: b := by simp
    intro h
    rw [h] at hdotmem
    exact absurd hdotmem (by decide)
  unfold unsignedMantissa
  rw [if_neg hinf, if_neg hnan,
    splitOnce_append (fun c hc => digit_beq_dot c (ha c hc)) (by decide)]
  have hab : (a ++ b).isEmpty = false := by
    cases a with
    | nil => exact absurd rfl hne
    | cons c t => rfl
  have hada : a.all Char.isDigit = true :=
    List.all_eq_true.mpr (fun c hc => digit_isDigit c (ha c hc))
  have hadb : b.all Char.isDigit = true :=
    List.all_eq_true.mpr (fun c hc => digit_isDigit c (hb c hc))
  simp [hab, hada, hadb]

theorem signedMantissa_cons {c : Char} {cs : List Char}
    (h1 : c ≠ '+') (h2 : c ≠ '-') :
    signedMantissa (c :: cs) = unsignedMantissa (c :: cs) := by
  simp [signedMantissa, h1, h2]

theorem pyFloatLit_dot {a b : List Char}
    (ha : ∀ c ∈ a, c ∈ digitChars) (hb : ∀ c ∈ b, c ∈ digitChars)
    (hne : a ≠ []) :
    pyFloatLit (a ++ '.' :: b)
      = some (FloatLit.num ((digitsVal a * 10 ^ b.length + digitsVal b : ℕ) : ℤ)
          (-(b.length : ℤ))) := by
  have hw : ∀ c ∈ a ++ '.' :: b, wsp c = false := by
    intro c hc
    rcases List.mem_append.mp hc with h | h
    · exact digit_wsp c (ha c h)
    · rcases List.mem_cons.mp h with rfl | h
      · decide
      · exact digit_wsp c (hb c h)
  have he : ∀ c ∈ a ++ '.' :: b, ((c == 'e') || (c == 'E')) = false := by
    intro c hc
    rcases List.mem_append.mp hc with h | h
    · exact digit_beq_e c (ha c h)
    · rcases List.mem_cons.mp h with rfl | h
      · decide
      · exact digit_beq_e c (hb c h)
  unfold pyFloatLit
  simp only [stripWs_eq_self hw, splitOnce_eq_none he]
  cases a with
  | nil => exact absurd rfl hne
  | cons c t =>
    show signedMantissa ((c :: t) ++ '.' :: b)
        = some (FloatLit.num
            ((digitsVal (c :: t) * 10 ^ b.length + digitsVal b : ℕ) : ℤ)
            (-(b.length : ℤ)))
    rw [List.cons_append,
      signedMantissa_cons (digit_ne_sign c (ha c (by simp))).1
        (digit_ne_sign c (ha c (by simp))).2,
      ← List.cons_append]
    exact unsignedMantissa_dot ha hb hne

theorem pyIntOfScaled_tdiv (m : ℤ) (len mult : ℕ) :
    pyIntOfScaled m (-(len : ℤ)) mult
      = Int.tdiv (m * (mult : ℤ)) ((10 : ℤ) ^ len) := by
  unfold pyIntOfScaled
  dsimp only
  by_cases h : len = 0
  · subst h
    simp
  · rw [if_neg (by omega)]
    rw [neg_neg, Int.toNat_natCast]

theorem parse_claps_KM {F : Type} (sem : PyFloatSem F) {a b : List Char}
    (ha : ∀ c ∈ a, c ∈ digitChars) (hb : ∀ c ∈ b, c ∈ digitChars) (hne : a ≠ [])
    {s0 S : Char} (hup : upChar s0 = S) (hw0 : wsp s0 = false)
    (hS : S = 'K' ∨ S = 'M') :
    parse_claps sem (String.mk (a ++ '.' :: b ++ [s0]))
      = catchValueError (sem.intTimes (sem.ofLiteral (FloatLit.num
          ((digitsVal a * 10 ^ b.length + digitsVal b : ℕ) : ℤ)
          (-(b.length : ℤ))))
          (if S = 'K' then 1000 else 1000000)) := by
  have hdata : (String.mk (a ++ '.' :: b ++ [s0])).data = a ++ '.' :: b ++ [s0] :=
    rfl
  have hnemp : String.mk (a ++ '.' :: b ++ [s0]) ≠ "" := by
    intro hEq
    have h2 := congrArg String.data hEq
    rw [hdata, show ("" : String).data = [] from rfl] at h2
    simp at h2
  have hstrip : stripWs (a ++ '.' :: b ++ [s0]) = a ++ '.' :: b ++ [s0] := by
    apply stripWs_eq_self
    intro c hc
    rcases List.mem_append.mp hc with h | h
    · rcases List.mem_append.mp h with h | h
      · exact digit_wsp c (ha c h)
      · rcases List.mem_cons.mp h with rfl | h
        · decide
        · exact digit_wsp c (hb c h)
    · rcases List.mem_cons.mp h with rfl | h
      · exact hw0
      · exact absurd h (by simp)
  have hupper : pyUpper (a ++ '.' :: b ++ [s0]) = a ++ '.' :: b ++ [S] := by
    simp only [pyUpper, List.map_append, List.map_cons, List.map_nil]
    rw [show List.map upChar a = a from map_upChar_digits ha,
      show List.map upChar b = b from map_upChar_digits hb,
      show upChar '.' = '.' from by decide, hup]
  simp only [parse_claps]
  rw [if_neg hnemp, hstrip, hupper]
  rcases hS with rfl | rfl
  · have hmem : 'K' ∈ a ++ '.' :: b ++ ['K'] := by simp
    rw [if_pos hmem]
    have hfa : a.filter (fun c => !(c == 'K')) = a :=
      List.filter_eq_self.mpr (fun c hc => by rw [digit_beq_K c (ha c hc)]; rfl)
    have hfb : b.filter (fun c => !(c == 'K')) = b :=
      List.filter_eq_self.mpr (fun c hc => by rw [digit_beq_K c (hb c hc)]; rfl)
    have hfil : (a ++ '.' :: b ++ ['K']).filter (fun c => !(c == 'K'))
        = a ++ '.' :: b := by
      simp [List.filter_append, List.filter_cons, hfa, hfb]
    rw [hfil, pyFloatLit_dot ha hb hne]
    simp
  · have hnK : 'K' ∉ a ++ '.' :: b ++ ['M'] := by
      intro h
      rcases List.mem_append.mp h with h | h
      · rcases List.mem_append.mp h with h | h
        · exact absurd (ha _ h) (by decide)
        · rcases List.mem_cons.mp h with h | h
          · exact absurd h (by decide)
          · exact absurd (hb _ h) (by decide)
      · exact absurd h (by simp)
    rw [if_neg hnK]
    have hmem : 'M' ∈ a ++ '.' :: b ++ ['M'] := by simp
    rw [if_pos hmem]
    have hfa : a.filter (fun c => !(c == 'M')) = a :=
      List.filter_eq_self.mpr (fun c hc => by rw [digit_beq_M c (ha c hc)]; rfl)
    have hfb : b.filter (fun c => !(c == 'M')) = b :=
      List.filter_eq_self.mpr (fun c hc => by rw [digit_beq_M c (hb c hc)]; rfl)
    have hfil : (a ++ '.' :: b ++ ['M']).filter (fun c => !(c == 'M'))
        = a ++ '.' :: b := by
      simp [List.filter_append, List.filter_cons, hfa, hfb]
    rw [hfil, pyFloatLit_dot ha hb hne]
    simp

theorem parse_claps_int {F : Type} (sem : PyFloatSem F) {a : List Char}
    (ha : ∀ c ∈ a, c ∈ digitChars) (hne : a ≠ []) :
    parse_claps sem (String.mk a) = Except.ok ((digitsVal a : ℕ) : ℤ) := by
  have hnemp : String.mk a ≠ "" := by
    intro hEq
    have h2 := congrArg String.data hEq
    rw [show (String.mk a).data = a from rfl,
      show ("" : String).data = [] from rfl] at h2
    exact absurd h2 hne
  simp only [parse_claps]
  rw [if_neg hnemp,
    stripWs_eq_self (fun c hc => digit_wsp c (ha c hc)), map_upChar_digits ha]
  have hK : 'K' ∉ a := fun h => absurd (ha _ h) (by decide)
  have hM : 'M' ∉ a := fun h => absurd (ha _ h) (by decide)
  rw [if_neg hK, if_neg hM]
  unfold pyIntChars
  rw [stripWs_eq_self (fun c hc => digit_wsp c (ha c hc))]
  cases a with
  | nil => exact absurd rfl hne
  | cons c t =>
    simp only [signedExp]
    rw [if_neg (digit_ne_sign c (ha c (by simp))).1,
      if_neg (digit_ne_sign c (ha c (by simp))).2,
      digitsOnly_digits ha (by simp)]
    rfl

/-- The `K` branch at the concrete input `"infK"`: the string with the `K`
removed is the special literal `inf`, handed to the runtime's `int(x * 1000)`
inside the `except ValueError` handler. -/
theorem parse_claps_infK {F : Type} (sem : PyFloatSem F) :
    parse_claps sem "infK"
      = catchValueError (sem.intTimes (sem.ofLiteral FloatLit.inf) 1000) := rfl

/-- The `K` branch at the concrete input `"1e400K"`: the `K`-removed string
parses to the finite decimal literal `1 * 10 ^ 400` (binary64 overflows it to
infinity at `float()` time). -/
theorem parse_claps_1e400K {F : Type} (sem : PyFloatSem F) :
    parse_claps sem "1e400K"
      = catchValueError (sem.intTimes (sem.ofLiteral (FloatLit.num 1 400)) 1000) :=
  rfl

/-- Claim C9 (corrected): `parse_claps` returns 0 for an empty or unparseable
string, and the scaling branches pass the string with every `K` (or `M`)
removed — not a "numeric prefix" — to `float()`, returning
`int(number * 1000)` (`K` takes precedence over `M`) or `int(number *
1000000)`; a plain digit string parses as an integer.  It is not true that it
returns without raising on every input: `int()` of an infinite value —
`float("inf")`, or a finite literal like `1e400` that binary64 overflows —
raises `OverflowError`, which the `except ValueError` handler does not catch.
The float/int value semantics is the runtime parameter `sem`; the exact-value
conjuncts hold for the exact-decimal reference runtime `exactSem`, which
agrees with binary64 whenever the values involved are exactly representable. -/
theorem claim_c9 {F : Type} (sem : PyFloatSem F) (a b : List Char)
    (ha : ∀ c ∈ a, c ∈ digitChars) (hb : ∀ c ∈ b, c ∈ digitChars)
    (hne : a ≠ []) :
    parse_claps sem (String.mk (a ++ '.' :: b ++ ['K']))
      = catchValueError (sem.intTimes (sem.ofLiteral (FloatLit.num
          ((digitsVal a * 10 ^ b.length + digitsVal b : ℕ) : ℤ)
          (-(b.length : ℤ)))) 1000)
    ∧ parse_claps sem (String.mk (a ++ '.' :: b ++ ['k']))
      = catchValueError (sem.intTimes (sem.ofLiteral (FloatLit.num
          ((digitsVal a * 10 ^ b.length + digitsVal b : ℕ) : ℤ)
          (-(b.length : ℤ)))) 1000)
    ∧ parse_claps sem (String.mk (a ++ '.' :: b ++ ['M']))
      = catchValueError (sem.intTimes (sem.ofLiteral (FloatLit.num
          ((digitsVal a * 10 ^ b.length + digitsVal b : ℕ) : ℤ)
          (-(b.length : ℤ)))) 1000000)
    ∧ parse_claps sem (String.mk a) = Except.ok ((digitsVal a : ℕ) : ℤ)
    ∧ parse_claps sem "" = Except.ok 0
    ∧ (sem.intTimes (sem.ofLiteral FloatLit.inf) 1000
          = Except.error PyExc.overflowError →
        parse_claps sem "infK" = Except.error PyExc.overflowError)
    ∧ (sem.intTimes (sem.ofLiteral (FloatLit.num 1 400)) 1000
          = Except.error PyExc.overflowError →
        parse_claps sem "1e400K" = Except.error PyExc.overflowError)
    ∧ parse_claps exactSem (String.mk (a ++ '.' :: b ++ ['K']))
      = Except.ok (Int.tdiv
          (((digitsVal a * 10 ^ b.length + digitsVal b : ℕ) : ℤ) * 1000)
          ((10 : ℤ) ^ b.length))
    ∧ parse_claps exactSem (String.mk (a ++ '.' :: b ++ ['M']))
      = Except.ok (Int.tdiv
          (((digitsVal a * 10 ^ b.length + digitsVal b : ℕ) : ℤ) * 1000000)
          ((10 : ℤ) ^ b.length)) := by
  refine ⟨?_, ?_, ?_, parse_claps_int sem ha hne, rfl, ?_, ?_, ?_, ?_⟩
  · rw [parse_claps_KM sem ha hb hne (by decide) (by decide) (Or.inl rfl)]
    norm_num
  · rw [parse_claps_KM sem ha hb hne (by decide) (by decide) (Or.inl rfl)]
    norm_num
  · rw [parse_claps_KM sem ha hb hne (by decide) (by decide) (Or.inr rfl),
      if_neg (by decide)]
  · intro h
    rw [parse_claps_infK sem, h]
    rfl
  · intro h
    rw [parse_claps_1e400K sem, h]
    rfl
  · rw [parse_claps_KM exactSem ha hb hne (by decide) (by decide) (Or.inl rfl)]
    show catchValueError (Except.ok (pyIntOfScaled
      ((digitsVal a * 10 ^ b.length + digitsVal b : ℕ) : ℤ)
      (-(b.length : ℤ)) 1000)) = _
    rw [show ∀ z : ℤ, catchValueError (Except.ok z) = Except.ok z from
      fun z => rfl, pyIntOfScaled_tdiv]
    norm_num
  · rw [parse_claps_KM exactSem ha hb hne (by decide) (by decide) (Or.inr rfl)]
    show catchValueError (Except.ok (pyIntOfScaled
      ((digitsVal a * 10 ^ b.length + digitsVal b : ℕ) : ℤ)
      (-(b.length : ℤ)) 1000000)) = _
    rw [show ∀ z : ℤ, catchValueError (Except.ok z) = Except.ok z from
      fun z => rfl, pyIntOfScaled_tdiv]
    norm_num

/-- Claim C9 counterexample: `parse_claps "1K2"` parses the digits on both
sides of the `K` (the code removes every `K` and parses the rest), giving
12000 — not 1000, the numeric prefix `1` times 1000 the claim describes.  At
this input the exact reference runtime coincides with the binary64 runtime:
the literal 12 and the product 12000 are integers below `2 ^ 53`, where
doubles are exact, and Python returns 12000 here. -/
theorem claim_c9_counterexample :
    parse_claps exactSem "1K2" = Except.ok 12000 ∧ (1 : ℤ) * 1000 ≠ 12000 :=
  ⟨rfl, by decide⟩

/-- Witness for claim C9 at the concrete inputs `"1.2K"` (exact-value branch)
and `"infK"` (uncaught-`OverflowError` branch, whose hypothesis `exactSem`
itself satisfies, as does the binary64 runtime). -/
theorem claim_c9_witness :
    parse_claps exactSem (String.mk (['1'] ++ '.' :: ['2'] ++ ['K']))
      = Except.ok (Int.tdiv (((digitsVal ['1'] * 10 ^ (['2'] : List Char).length
          + digitsVal ['2'] : ℕ) : ℤ) * 1000)
          ((10 : ℤ) ^ (['2'] : List Char).length))
    ∧ parse_claps exactSem "infK" = Except.error PyExc.overflowError :=
  have h := claim_c9 exactSem ['1'] ['2'] (by decide) (by decide) (by decide)
  ⟨h.2.2.2.2.2.2.2.1, h.2.2.2.2.2.1 rfl⟩

end Scraper
